import Mathlib

/-!
Verification of the PPP Price Converter core against its specification.

The TypeScript sources are shallowly embedded below:
* `parseCSVLine`, `loadPPPData`, `getCountriesFromPPPData` from
  src/frontend/src/utils/pppParser.ts (bundled in PriceConverter.vue's corpus),
* `convertCurrency`, `getExchangeRate`, `fetchExchangeRates`, `FALLBACK_RATES`
  from src/frontend/src/services/currencyService.ts,
* the `convertedPrice` computed value and the legacy
  `countryCodeToCurrencyCode` / `getCurrencyToCountryCode` tables from
  src/frontend/src/components/converter/PriceConverter.vue.

JavaScript numbers are modelled exactly: values flowing through arithmetic as
rationals (`ℚ`), and results of `parseFloat` as `JSNumber` (a rational, an
infinity, or NaN).  JavaScript falsiness on numbers (`!x`) is `x = 0` / NaN /
undefined; on strings it is emptiness; `undefined` is `Option.none`.
Records/Maps are association lists in insertion order, mirroring the iteration
order of JavaScript objects with non-index string keys and of `Map`.
-/

namespace PPP

/-! ## JavaScript string primitives -/

/-- The WhiteSpace and LineTerminator code points recognised by
JavaScript's `String.prototype.trim`. -/
def jsWhitespace (c : Char) : Bool :=
  c = ' ' ∨ c = '\t' ∨ c = '\n' ∨ c = '\r' ∨
  c = '\x0b' ∨ c = '\x0c' ∨ c = ' ' ∨ c = '﻿' ∨
  c = ' ' ∨ (' ' ≤ c ∧ c ≤ ' ') ∨
  c = ' ' ∨ c = ' ' ∨ c = ' ' ∨ c = ' ' ∨ c = '　'

/-- Drop trailing whitespace, keeping the head of the list intact when the
result is nonempty. -/
def dropTrailingWs : List Char → List Char
  | [] => []
  | c :: cs =>
    match dropTrailingWs cs with
    | [] => if jsWhitespace c then [] else [c]
    | c' :: cs' => c :: c' :: cs'

/-- JavaScript `String.prototype.trim`. -/
def jsTrim (s : String) : String :=
  ⟨dropTrailingWs (s.data.dropWhile jsWhitespace)⟩

/-- JavaScript `String.prototype.split` with a single-character separator:
`"".split(sep)` is `[""]`, adjacent separators produce empty fields. -/
def splitOnChar (sep : Char) : List Char → List (List Char)
  | [] => [[]]
  | c :: cs =>
    if c = sep then [] :: splitOnChar sep cs
    else
      match splitOnChar sep cs with
      | [] => [[c]]
      | l :: ls => (c :: l) :: ls

/-- `text.split('\n')` on a Lean string. -/
def jsSplitNewline (s : String) : List String :=
  (splitOnChar '\n' s.data).map fun cs => ⟨cs⟩

/-! ## JavaScript numbers and `parseFloat` -/

/-- The possible results of JavaScript's `parseFloat`: a finite value
(modelled exactly as a rational rather than a binary float), an infinity,
or NaN. -/
inductive JSNumber where
  | finite (q : ℚ)
  | posInf
  | negInf
  | nan
deriving DecidableEq, Repr

/-- JavaScript `isNaN` on a `parseFloat` result. -/
def JSNumber.isNaN : JSNumber → Bool
  | .nan => true
  | _ => false

/-- Numeric value of a digit character. -/
def digitVal (c : Char) : ℕ := c.toNat - 48

/-- Value of a digit string read in base 10. -/
def digitsToNat (ds : List Char) : ℕ :=
  ds.foldl (fun n c => 10 * n + digitVal c) 0

/-- Split off a leading run of decimal digits. -/
def takeDigits (cs : List Char) : List Char × List Char :=
  (cs.takeWhile Char.isDigit, cs.dropWhile Char.isDigit)

/-- Consume an optional sign; `true` means negative. -/
def parseSign : List Char → Bool × List Char
  | '-' :: rest => (true, rest)
  | '+' :: rest => (false, rest)
  | cs => (false, cs)

/-- Read an optional exponent part `e`/`E` followed by an optionally signed
digit run; an exponent marker without digits contributes nothing, matching
`parseFloat`'s longest-valid-prefix rule. -/
def parseExponent (cs : List Char) : ℤ :=
  match cs with
  | 'e' :: rest | 'E' :: rest =>
    let sr := parseSign rest
    let ds := (takeDigits sr.2).1
    if ds.isEmpty then 0
    else if sr.1 then -(digitsToNat ds : ℤ) else (digitsToNat ds : ℤ)
  | _ => 0

/-- JavaScript `parseFloat`: skip leading whitespace, then read the longest
prefix that is a signed decimal literal or `Infinity`; NaN when there is
none.  Trailing garbage is ignored. -/
def jsParseFloat (s : String) : JSNumber :=
  let cs := s.data.dropWhile jsWhitespace
  let sgn := parseSign cs
  if sgn.2.take 8 = "Infinity".data then
    if sgn.1 then JSNumber.negInf else JSNumber.posInf
  else
    let ipr := takeDigits sgn.2
    let fpr : List Char × List Char :=
      match ipr.2 with
      | '.' :: rest => takeDigits rest
      | _ => ([], ipr.2)
    if ipr.1.isEmpty ∧ fpr.1.isEmpty then JSNumber.nan
    else
      let e := parseExponent fpr.2
      let mantissa : ℚ := (digitsToNat ipr.1 : ℚ) + (digitsToNat fpr.1 : ℚ) / (10 : ℚ) ^ fpr.1.length
      let mag : ℚ := mantissa * (10 : ℚ) ^ e
      JSNumber.finite (if sgn.1 then -mag else mag)

/-! ## JavaScript records as association lists -/

/-- JavaScript falsiness of a `number | undefined` value. -/
def numFalsy : Option ℚ → Bool
  | none => true
  | some x => x = 0

/-- JavaScript falsiness of a `string | undefined` value. -/
def strFalsy : Option String → Bool
  | none => true
  | some s => s = ""

/-- JavaScript `x || d` for a `number | undefined` value. -/
def jsNumOr (o : Option ℚ) (d : ℚ) : ℚ :=
  match o with
  | none => d
  | some x => if x = 0 then d else x

/-- JavaScript `x || d` for a `string | undefined` value. -/
def jsStrOr (o : Option String) (d : String) : String :=
  match o with
  | none => d
  | some s => if s = "" then d else s

/-- `m[k] = v` on a JavaScript object / `Map.set`: update in place,
preserving insertion order, appending when the key is new. -/
def mapSet {α : Type} : List (String × α) → String → α → List (String × α)
  | [], k, v => [(k, v)]
  | kv :: rest, k, v => if kv.1 = k then (k, v) :: rest else kv :: mapSet rest k v

/-! ## pppParser.ts : `parseCSVLine` -/

/-- The character loop of `parseCSVLine`: `cur` is the field accumulated so
far, `inQuotes` the quote flag. -/
def csvAux : List Char → List Char → Bool → List String
  | [], cur, _ => [⟨cur⟩]
  | c :: cs, cur, inQuotes =>
    if c = '"' then csvAux cs cur (!inQuotes)
    else if c = ',' ∧ inQuotes = false then (⟨cur⟩ : String) :: csvAux cs [] false
    else csvAux cs (cur ++ [c]) inQuotes

/-- `parseCSVLine(line)`: split a CSV line at commas, honouring double
quotes. -/
def parseCSVLine (line : String) : List String :=
  csvAux line.data [] false

/-! ## pppParser.ts : `loadPPPData` -/

/-- One parsed PPP row (`PPPCountryData` in the source). -/
structure PPPCountryData where
  countryName : String
  countryCode : String
  pppFactor : Option JSNumber
  year : ℕ
deriving DecidableEq, Repr

/-- The mapping built by `loadPPPData`, in `Map` insertion order. -/
abbrev PPPMap := List (String × PPPCountryData)

/-- The errors thrown by `loadPPPData` (the spec's `DataFormatError`). -/
inductive DataFormatError where
  | invalidCSV
  | missingHeader
  | no2024Data
deriving DecidableEq, Repr

/-- The lines of the fetched text: `text.trim().split('\n')`. -/
def linesOf (text : String) : List String :=
  jsSplitNewline (jsTrim text)

/-- The body of `loadPPPData`'s row loop: `some` a record exactly when the
row is kept, mirroring the source's sequence of `continue` guards. -/
def acceptedRecord (yearIndex : ℕ) (line : String) : Option PPPCountryData :=
  if line = "" then none
  else
    let values := parseCSVLine line
    if values.length < yearIndex + 1 then none
    else
      let countryName := (values[0]?).getD ""
      let countryCode := (values[1]?).getD ""
      let pppValue := (values[yearIndex]?).getD ""
      if countryName = "" ∨ countryCode = "" ∨ pppValue = "" then none
      else if (jsParseFloat pppValue).isNaN then none
      else some ⟨countryName, countryCode, some (jsParseFloat pppValue), 2024⟩

/-- `loadPPPData`, as a function of the fetched CSV text. -/
def loadPPPData (text : String) : Except DataFormatError PPPMap :=
  let lines := linesOf text
  if lines.length < 2 then .error .invalidCSV
  else
    let headerLine := lines.headD ""
    if headerLine = "" then .error .missingHeader
    else
      match (parseCSVLine headerLine).findIdx? (· == "2024") with
      | none => .error .no2024Data
      | some yearIndex =>
        .ok ((lines.drop 1).foldl
          (fun m line =>
            match acceptedRecord yearIndex line with
            | none => m
            | some r => mapSet m r.countryCode r)
          [])

/-! ## currencyService.ts -/

/-- The `ExchangeRates` interface: an exchange-rate snapshot. -/
structure ExchangeRates where
  base : String
  rates : List (String × ℚ)
  timestamp : ℕ
  lastUpdated : Option String
deriving DecidableEq, Repr

/-- `CACHE_DURATION`: one hour in milliseconds. -/
def CACHE_DURATION : ℕ := 3600000

/-- The hard-coded `FALLBACK_RATES` table, parameterised by the
`Date.now()` value observed at module load. -/
def FALLBACK_RATES (moduleTime : ℕ) : ExchangeRates :=
  { base := "USD"
    rates :=
      [("USD", 1.0), ("GBP", 0.79), ("EUR", 0.92), ("JPY", 149.0), ("CAD", 1.36),
       ("AUD", 1.53), ("INR", 83.0), ("CNY", 7.24), ("CHF", 0.88), ("NOK", 10.5),
       ("SEK", 10.3), ("DKK", 6.9), ("PLN", 4.0), ("TRY", 32.0), ("RUB", 92.0),
       ("BRL", 5.0), ("MXN", 17.0), ("ZAR", 18.5), ("KRW", 1320.0), ("SGD", 1.34),
       ("HKD", 7.8), ("NZD", 1.63), ("IDR", 15700.0), ("THB", 35.0), ("MYR", 4.7),
       ("PHP", 56.0), ("ISK", 137.0), ("CZK", 23.0), ("HUF", 360.0), ("RON", 4.6),
       ("HRK", 7.0), ("BDT", 110.0), ("PKR", 278.0), ("VND", 24500.0), ("EGP", 48.5),
       ("NGN", 1400.0), ("ARS", 990.0), ("CLP", 950.0), ("COP", 4050.0), ("PER", 3.8),
       ("ILS", 3.7), ("AED", 3.67), ("SAR", 3.75), ("QAR", 3.64), ("KWD", 0.31),
       ("OMR", 0.38), ("BHD", 0.38), ("JOD", 0.71), ("LBP", 89500.0), ("MAD", 10.0),
       ("TND", 3.1), ("DZA", 135.0), ("LKR", 325.0), ("NPR", 132.0), ("BGD", 110.0),
       ("MMK", 2100.0), ("KHR", 4100.0), ("LAK", 20500.0), ("BYN", 3.25), ("MDL", 17.8),
       ("GEL", 2.65), ("AMD", 390.0), ("AZN", 1.7), ("KZT", 450.0), ("KGS", 88.0),
       ("TJS", 10.9), ("TMT", 3.5), ("UZS", 12500.0), ("UAH", 41.0), ("MKD", 56.5),
       ("RSD", 108.0), ("BAM", 1.8), ("ALL", 93.0), ("IRR", 42000.0), ("IQD", 1310.0),
       ("SYP", 13000.0), ("YER", 250.0), ("AOA", 900.0), ("XOF", 605.0), ("XAF", 605.0),
       ("GHS", 15.0), ("KES", 130.0), ("UGX", 3700.0), ("TZS", 2600.0), ("ETB", 120.0),
       ("ZMW", 27.0), ("MWK", 1730.0), ("RWF", 1360.0), ("BIF", 2850.0), ("MGA", 4500.0),
       ("MUR", 46.0), ("SCR", 14.0), ("CVE", 102.0), ("GMD", 70.0), ("SLL", 22000.0),
       ("LRD", 190.0), ("DJF", 178.0), ("SOS", 570.0), ("SDG", 600.0), ("SSP", 130.0),
       ("ERN", 15.0), ("MZN", 64.0), ("BWP", 13.5), ("NAD", 18.5), ("SZL", 18.5),
       ("LSL", 18.5), ("ZWL", 322.0), ("XCD", 2.7), ("TTD", 6.8), ("JMD", 155.0),
       ("BBD", 2.0), ("BSD", 1.0), ("BZD", 2.0), ("GYD", 209.0), ("SRD", 35.5),
       ("HTG", 132.0), ("DOP", 59.0), ("CRC", 520.0), ("GTQ", 7.8), ("HNL", 24.8),
       ("NIO", 36.8), ("PAB", 1.0), ("PYG", 7350.0), ("UYU", 42.0), ("BOB", 6.9),
       ("VES", 36.5), ("PGK", 3.9), ("WST", 2.8), ("TOP", 2.4), ("FJD", 2.3),
       ("VUV", 119.0), ("SBD", 8.5), ("STN", 24.0), ("KMF", 455.0), ("MVR", 15.4),
       ("BND", 1.34), ("MNT", 3400.0), ("AFN", 70.0), ("BTN", 83.0), ("GNF", 8600.0)]
    timestamp := moduleTime
    lastUpdated := some "Static fallback rates" }

/-- The JSON payload of a successful rate fetch: `base`, `rates` and `date`
may each be absent. -/
structure ApiData where
  base : Option String
  rates : Option (List (String × ℚ))
  date : Option String
deriving DecidableEq, Repr

/-- The outcome of the network interaction inside `fetchExchangeRates`:
a parsed JSON payload, a non-ok HTTP status (which the source turns into a
thrown error), or a fetch/parse failure. -/
inductive NetworkOutcome where
  | ok (d : ApiData)
  | httpError
  | netError
deriving DecidableEq, Repr

/-- The snapshot built from a successful fetch at time `now`, `today` being
`new Date().toISOString().split('T')[0]`. -/
def snapshotOfApi (d : ApiData) (now : ℕ) (today : String) : ExchangeRates :=
  { base := jsStrOr d.base "USD"
    rates := d.rates.getD []
    timestamp := now
    lastUpdated := some (jsStrOr d.date today) }

/-- `fetchExchangeRates`, as a function of the module-load time, the cached
snapshot (`getCachedRates()`, `none` when absent or unreadable), the current
time, the network outcome, and today's date string.  Returns the resolved
snapshot together with the cache contents after the call. -/
def fetchExchangeRates (moduleTime : ℕ) (cached : Option ExchangeRates)
    (now : ℕ) (net : NetworkOutcome) (today : String) :
    ExchangeRates × Option ExchangeRates :=
  match cached with
  | some c =>
    if now - c.timestamp < CACHE_DURATION then (c, some c)
    else
      match net with
      | .ok d =>
        let snap := snapshotOfApi d now today
        (snap, some snap)
      | _ => (c, some c)
  | none =>
    match net with
    | .ok d =>
      let snap := snapshotOfApi d now today
      (snap, some snap)
    | _ => (FALLBACK_RATES moduleTime, none)

/-- `convertCurrency(amount, fromCurrency, toCurrency, rates)`. -/
def convertCurrency (amount : ℚ) (fromCurrency toCurrency : String)
    (rates : ExchangeRates) : ℚ :=
  if fromCurrency = toCurrency then amount
  else
    let fromRate := rates.rates.lookup fromCurrency
    let toRate := rates.rates.lookup toCurrency
    if numFalsy fromRate || numFalsy toRate then amount
    else
      if rates.base = fromCurrency then amount * toRate.getD 0
      else if rates.base = toCurrency then amount / fromRate.getD 0
      else amount / fromRate.getD 0 * toRate.getD 0

/-- `getExchangeRate(fromCurrency, toCurrency, rates)`. -/
def getExchangeRate (fromCurrency toCurrency : String)
    (rates : ExchangeRates) : ℚ :=
  if fromCurrency = toCurrency then 1
  else
    let fromRate := rates.rates.lookup fromCurrency
    let toRate := rates.rates.lookup toCurrency
    if numFalsy fromRate || numFalsy toRate then 1
    else
      if rates.base = fromCurrency then toRate.getD 0
      else if rates.base = toCurrency then 1 / fromRate.getD 0
      else toRate.getD 0 / fromRate.getD 0

/-! ## pppParser.ts : `getCountriesFromPPPData` -/

/-- The `Country` catalog entry type. -/
structure Country where
  name : String
  code : String
  currency : String
  currencyCode : String
  flag : String
deriving DecidableEq, Repr

/-- The loop body of `getCountriesFromPPPData`: join each PPP entry with the
static reference tables, skipping countries without a (truthy) currency
mapping.  `ccToCur` is `countryCodeToCurrencyCode`, `curNames` is
`currencyNames`, `flagOf` is `getCountryFlag`. -/
def buildCountries (ccToCur curNames : List (String × String))
    (flagOf : String → String) (m : PPPMap) : List Country :=
  m.foldl
    (fun acc kv =>
      let currencyCode? := ccToCur.lookup kv.1
      if strFalsy currencyCode? then acc
      else
        let currencyCode := currencyCode?.getD ""
        acc ++ [{ name := kv.2.countryName
                  code := kv.1
                  currency := jsStrOr (curNames.lookup currencyCode) currencyCode
                  currencyCode := currencyCode
                  flag := flagOf kv.1 }])
    []

/-- `getCountriesFromPPPData`, parameterised by the static reference tables
(which live in the `currencyMapping` module) and by the locale-aware
comparison `lc` implementing `String.prototype.localeCompare`.  The final
`countries.sort((a, b) => a.name.localeCompare(b.name))` is modelled by a
merge sort, which produces a list sorted w.r.t. the comparator exactly as
ECMA-262 guarantees for `Array.prototype.sort` with a consistent
comparator. -/
def getCountriesFromPPPData (ccToCur curNames : List (String × String))
    (flagOf : String → String) (lc : String → String → ℤ) (text : String) :
    Except DataFormatError (List Country) :=
  (loadPPPData text).map fun m =>
    (buildCountries ccToCur curNames flagOf m).mergeSort
      fun a b => lc a.name b.name ≤ 0

/-! ## PriceConverter.vue : legacy `currencyMapping` tables -/

/-- The `countryCodeToCurrencyCode` record, in source (insertion) order. -/
def countryCodeToCurrencyCode : List (String × String) :=
  [("USA", "USD"), ("GBR", "GBP"), ("JPN", "JPY"), ("CAN", "CAD"),
   ("AUS", "AUD"), ("IND", "INR"), ("CHN", "CNY"),
   ("AUT", "EUR"), ("BEL", "EUR"), ("CYP", "EUR"), ("EST", "EUR"),
   ("FIN", "EUR"), ("FRA", "EUR"), ("DEU", "EUR"), ("GRC", "EUR"),
   ("IRL", "EUR"), ("ITA", "EUR"), ("LVA", "EUR"), ("LTU", "EUR"),
   ("LUX", "EUR"), ("MLT", "EUR"), ("NLD", "EUR"), ("PRT", "EUR"),
   ("SVK", "EUR"), ("SVN", "EUR"), ("ESP", "EUR")]

/-- The loop of `getCurrencyToCountryCode` applied to an arbitrary entry
list: the reverse map starts with the explicit `EUR ↦ DEU` pin and records
the first country seen for every currency whose slot is still falsy. -/
def buildReverseMap (entries : List (String × String)) : List (String × String) :=
  entries.foldl
    (fun m kv => if strFalsy (m.lookup kv.2) then mapSet m kv.2 kv.1 else m)
    [("EUR", "DEU")]

/-- `getCurrencyToCountryCode()` from the source. -/
def getCurrencyToCountryCode : List (String × String) :=
  buildReverseMap countryCodeToCurrencyCode

/-! ## PriceConverter.vue : the `convertedPrice` computed value -/

/-- The result object of `convertedPrice` (the spec's `ConversionOutcome`). -/
structure ConversionOutcome where
  exchange : ℚ
  ppp : ℚ
  currency : String
  originPPP : ℚ
  targetPPP : ℚ
deriving DecidableEq, Repr

/-- The reactive inputs read by `convertedPrice`: `price` (`number | null`),
the two `computed` country lookups (`undefined` when the code is not in the
catalog), the loading flag, the mock `exchangeRates` record and the
`pppFactors` record keyed by currency code. -/
structure ConverterState where
  price : Option ℚ
  originCountry : Option Country
  targetCountry : Option Country
  isLoading : Bool
  exchangeRates : List (String × ℚ)
  pppFactors : List (String × ℚ)

/-- The `convertedPrice` computed: `null` when the price is falsy, a country
is unselected, the data is still loading, or either PPP factor is falsy;
otherwise the exchange-rate and PPP conversions. -/
def convertedPrice (st : ConverterState) : Option ConversionOutcome :=
  if numFalsy st.price || st.originCountry.isNone || st.targetCountry.isNone
      || st.isLoading then
    none
  else
    match st.price, st.originCountry, st.targetCountry with
    | some p, some oc, some tc =>
      let originExchangeRate := jsNumOr (st.exchangeRates.lookup oc.currencyCode) 1.0
      let targetExchangeRate := jsNumOr (st.exchangeRates.lookup tc.currencyCode) 1.0
      let originPPP := st.pppFactors.lookup oc.currencyCode
      let targetPPP := st.pppFactors.lookup tc.currencyCode
      if numFalsy originPPP || numFalsy targetPPP then none
      else
        some { exchange := p / originExchangeRate * targetExchangeRate
               ppp := p * targetPPP.getD 0 / originPPP.getD 0
               currency := tc.currencyCode
               originPPP := originPPP.getD 0
               targetPPP := targetPPP.getD 0 }
    | _, _, _ => none

/-! ## Specification-side characterisations

The definitions below restate, directly from the spec's wording, the
conditions the claims use; the theorems compare them with the embedded
source functions above. -/

/-- The column index of the supported reference year in the header row
(`headers.indexOf('2024')`, `none` for `-1`). -/
def findYearIndex (text : String) : Option ℕ :=
  (parseCSVLine ((linesOf text).headD "")).findIdx? (· == "2024")

/-- The spec's row-acceptance condition: enough columns to reach the year
column; country-name, country-code and year-value fields non-empty; and the
year-value parses as a non-NaN float. -/
def rowAccepted (yearIndex : ℕ) (line : String) : Bool :=
  let values := parseCSVLine line
  decide (yearIndex + 1 ≤ values.length) &&
  ((values[0]?).getD "" != "") &&
  ((values[1]?).getD "" != "") &&
  ((values[yearIndex]?).getD "" != "") &&
  !(jsParseFloat ((values[yearIndex]?).getD "")).isNaN

/-- The record of the last accepted data row carrying a given country code,
in file order (the spec's last-occurrence-wins rule). -/
def lastAccepted (yearIndex : ℕ) (lines : List String) (code : String) :
    Option PPPCountryData :=
  lines.foldl
    (fun acc line =>
      match acceptedRecord yearIndex line with
      | some r => if r.countryCode = code then some r else acc
      | none => acc)
    none

/-- The number of commas of a line that lie outside double-quoted regions
(`inQ` is the quote parity carried in); the spec calls these the field
separators. -/
def sepCount : List Char → Bool → ℕ
  | [], _ => 0
  | c :: cs, inQ =>
    if c = '"' then sepCount cs (!inQ)
    else if c = ',' ∧ inQ = false then sepCount cs inQ + 1
    else sepCount cs inQ

/-! ## Concrete fixtures used by the witnesses -/

/-- The spec's §8 example snapshot: base USD with USD, GBP, EUR rates. -/
def exampleSnapshot : ExchangeRates :=
  { base := "USD"
    rates := [("USD", 1), ("GBP", 79/100), ("EUR", 92/100)]
    timestamp := 0
    lastUpdated := none }

/-- A concrete origin country for the conversion-engine witnesses. -/
def exampleCountryUSA : Country :=
  { name := "United States", code := "USA", currency := "US Dollar",
    currencyCode := "USD", flag := "" }

/-- A concrete target country for the conversion-engine witnesses. -/
def exampleCountryGBR : Country :=
  { name := "United Kingdom", code := "GBR", currency := "British Pound",
    currencyCode := "GBP", flag := "" }

/-- The spec's §8 example PPP factors: origin 1.0, target 0.7. -/
def examplePPPFactors : List (String × ℚ) :=
  [("USD", 1), ("GBP", 7/10)]

/-- A CSV fixture exercising the loader: a duplicate country code (AAA),
an empty year value (CCC), a row too short to reach the year column (DDD),
an empty country name (EEE), and an unparsable year value (FFF). -/
def exampleCSVdup : String :=
  "Country Name,Country Code,2023,2024\nAland,AAA,1,2\nBland,BBB,1,3\nAland v2,AAA,1,4\nNoYear,CCC,1,\nRowless,DDD\n,EEE,1,5\nFland,FFF,1,abc"

/-- The mapping the loader produces on `exampleCSVdup`. -/
def exampleMapDup : PPPMap :=
  match loadPPPData exampleCSVdup with
  | .ok m => m
  | .error _ => []

/-- A reference table for the catalog witness: CCC is deliberately absent. -/
def exampleRefTable : List (String × String) :=
  [("AAA", "USD"), ("BBB", "GBP")]

/-- A currency display-name table for the catalog witness. -/
def exampleCurrencyNames : List (String × String) :=
  [("USD", "US Dollar")]

/-- A CSV fixture for the catalog witness: three countries, one (CCC)
missing from the reference table. -/
def exampleCSVcat : String :=
  "Country Name,Country Code,2024\nBeta,BBB,2\nAlpha,AAA,3\nGamma,CCC,4"

/-- The catalog produced on `exampleCSVcat` with the constant-zero
comparator (a legal, consistent comparator under which all names tie). -/
def exampleCatalog : List Country :=
  match getCountriesFromPPPData exampleRefTable exampleCurrencyNames
      (fun _ => "") (fun _ _ => 0) exampleCSVcat with
  | .ok cs => cs
  | .error _ => []

/-! ## Decidability of `Except` results -/

instance {ε α : Type} [DecidableEq ε] [DecidableEq α] : DecidableEq (Except ε α) := fun
  | .error e, .error e' =>
    if h : e = e' then .isTrue (by rw [h]) else .isFalse (by intro hc; cases hc; exact h rfl)
  | .error _, .ok _ => .isFalse (by intro hc; cases hc)
  | .ok _, .error _ => .isFalse (by intro hc; cases hc)
  | .ok a, .ok a' =>
    if h : a = a' then .isTrue (by rw [h]) else .isFalse (by intro hc; cases hc; exact h rfl)

/-! ## Helper lemmas on association lists -/

theorem lookup_cons_ite {α : Type} (kv : String × α) (rest : List (String × α))
    (k : String) :
    (kv :: rest).lookup k = if k = kv.1 then some kv.2 else rest.lookup k := by
  cases kv with
  | mk k' v =>
    rw [List.lookup_cons]
    by_cases h : k = k'
    · simp [h]
    · have hb : (k == k') = false := by simp [h]
      simp [hb, h]

theorem lookup_mem {α : Type} {l : List (String × α)} {k : String} {v : α}
    (h : l.lookup k = some v) : (k, v) ∈ l := by
  induction l with
  | nil => simp at h
  | cons kv rest ih =>
    rw [lookup_cons_ite] at h
    by_cases hk : k = kv.1
    · rw [if_pos hk] at h
      cases h
      cases kv
      simp_all
    · rw [if_neg hk] at h
      exact List.mem_cons_of_mem _ (ih h)

theorem lookup_mapSet_self {α : Type} (m : List (String × α)) (k : String) (v : α) :
    (mapSet m k v).lookup k = some v := by
  induction m with
  | nil => simp [mapSet, lookup_cons_ite]
  | cons kv rest ih =>
    by_cases h : kv.1 = k
    · simp [mapSet, h, lookup_cons_ite]
    · simp only [mapSet, if_neg h]
      rw [lookup_cons_ite, if_neg (Ne.symm h)]
      exact ih

theorem lookup_mapSet_ne {α : Type} (m : List (String × α)) (k k' : String) (v : α)
    (h : k' ≠ k) : (mapSet m k v).lookup k' = m.lookup k' := by
  induction m with
  | nil => simp [mapSet, lookup_cons_ite, h]
  | cons kv rest ih =>
    by_cases hk : kv.1 = k
    · subst hk
      have hms : mapSet (kv :: rest) kv.1 v = (kv.1, v) :: rest := by simp [mapSet]
      rw [hms, lookup_cons_ite, lookup_cons_ite]
      simp [h]
    · simp only [mapSet, if_neg hk]
      rw [lookup_cons_ite, lookup_cons_ite]
      by_cases hk' : k' = kv.1
      · simp [hk']
      · simp [hk', ih]

theorem mem_mapSet {α : Type} {m : List (String × α)} {k : String} {v : α}
    {kv : String × α} (h : kv ∈ mapSet m k v) : kv = (k, v) ∨ kv ∈ m := by
  induction m with
  | nil => simpa [mapSet] using h
  | cons hd rest ih =>
    by_cases hh : hd.1 = k
    · simp only [mapSet, if_pos hh] at h
      rcases List.mem_cons.mp h with h | h
      · exact Or.inl h
      · exact Or.inr (List.mem_cons_of_mem _ h)
    · simp only [mapSet, if_neg hh] at h
      rcases List.mem_cons.mp h with h | h
      · exact Or.inr (h ▸ List.mem_cons_self _ _)
      · rcases ih h with h | h
        · exact Or.inl h
        · exact Or.inr (List.mem_cons_of_mem _ h)

/-! ## C10 -/

/-- C10: when the entered amount is exactly `0`, `convertedPrice` is `null`
even though both countries are selected, loading is finished, and arbitrary
exchange-rate and PPP tables are available — a zero amount is treated the
same as absent input. -/
theorem convertedPrice_zero_amount (oc tc : Country)
    (ex ppp : List (String × ℚ)) :
    convertedPrice ⟨some 0, some oc, some tc, false, ex, ppp⟩ = none := by
  simp [convertedPrice, numFalsy]

/-! ## C3 -/

/-- C3: `fetchExchangeRates` never fails: for every cache state and network
outcome the result is the cached snapshot, a snapshot built from the fetched
payload, or the static fallback table; in particular, when the network fetch
fails (thrown error or non-ok status) and no cached snapshot exists, it
returns `FALLBACK_RATES`, whose `lastUpdated` field is the static-fallback
sentinel label. -/
theorem fetchExchangeRates_total_and_fallback :
    (∀ mt now today,
      (fetchExchangeRates mt none now .httpError today).1 = FALLBACK_RATES mt ∧
      (fetchExchangeRates mt none now .netError today).1 = FALLBACK_RATES mt ∧
      (FALLBACK_RATES mt).lastUpdated = some "Static fallback rates") ∧
    (∀ mt cached now net today,
      (∃ c, cached = some c ∧ (fetchExchangeRates mt cached now net today).1 = c) ∨
      (∃ d, net = .ok d ∧
        (fetchExchangeRates mt cached now net today).1 = snapshotOfApi d now today) ∨
      (fetchExchangeRates mt cached now net today).1 = FALLBACK_RATES mt) := by
  constructor
  · intro mt now today
    exact ⟨rfl, rfl, rfl⟩
  · intro mt cached now net today
    cases cached with
    | none =>
      cases net with
      | ok d => exact Or.inr (Or.inl ⟨d, rfl, rfl⟩)
      | httpError => exact Or.inr (Or.inr rfl)
      | netError => exact Or.inr (Or.inr rfl)
    | some c =>
      by_cases hfresh : now - c.timestamp < CACHE_DURATION
      · exact Or.inl ⟨c, rfl, by simp [fetchExchangeRates, hfresh]⟩
      · cases net with
        | ok d =>
          exact Or.inr (Or.inl ⟨d, rfl, by simp [fetchExchangeRates, hfresh]⟩)
        | httpError => exact Or.inl ⟨c, rfl, by simp [fetchExchangeRates, hfresh]⟩
        | netError => exact Or.inl ⟨c, rfl, by simp [fetchExchangeRates, hfresh]⟩

/-! ## C9 -/

theorem revMap_preserve (entries : List (String × String))
    (m : List (String × String)) (cur v : String)
    (hv : m.lookup cur = some v) (hne : v ≠ "") :
    (entries.foldl
      (fun m kv => if strFalsy (m.lookup kv.2) then mapSet m kv.2 kv.1 else m)
      m).lookup cur = some v := by
  induction entries generalizing m with
  | nil => simpa using hv
  | cons kv rest ih =>
    simp only [List.foldl_cons]
    by_cases hc : kv.2 = cur
    · have hfal : strFalsy (m.lookup kv.2) = false := by
        rw [hc, hv]
        simp [strFalsy, hne]
      rw [if_neg (by rw [hfal]; simp)]
      exact ih m hv
    · by_cases hf : strFalsy (m.lookup kv.2) = true
      · rw [if_pos hf]
        exact ih _ (by rw [lookup_mapSet_ne _ _ _ _ (Ne.symm hc)]; exact hv)
      · rw [if_neg hf]
        exact ih m hv

theorem revMap_first (entries : List (String × String))
    (m : List (String × String)) (cur : String)
    (hm : m.lookup cur = none) (hne : ∀ e ∈ entries, e.1 ≠ "") :
    (entries.foldl
      (fun m kv => if strFalsy (m.lookup kv.2) then mapSet m kv.2 kv.1 else m)
      m).lookup cur = (entries.find? (fun e => e.2 == cur)).map (·.1) := by
  induction entries generalizing m with
  | nil => simpa using hm
  | cons kv rest ih =>
    simp only [List.foldl_cons]
    by_cases hc : kv.2 = cur
    · have hfal : strFalsy (m.lookup kv.2) = true := by rw [hc, hm]; rfl
      rw [if_pos hfal]
      rw [revMap_preserve rest _ cur kv.1
        (by rw [← hc]; exact lookup_mapSet_self m kv.2 kv.1)
        (hne kv (List.mem_cons_self _ _))]
      rw [List.find?_cons_of_pos _ (by simp [hc])]
      simp
    · rw [List.find?_cons_of_neg _ (by simp [hc])]
      by_cases hf : strFalsy (m.lookup kv.2) = true
      · rw [if_pos hf]
        refine ih _ ?_ (fun e he => hne e (List.mem_cons_of_mem _ he))
        rw [lookup_mapSet_ne _ _ _ _ (Ne.symm hc)]
        exact hm
      · rw [if_neg hf]
        exact ih m hm (fun e he => hne e (List.mem_cons_of_mem _ he))

/-- C9: the reverse mapping pins `EUR` to `DEU` regardless of the entry list
(hence of iteration order), and sends every other currency code to the first
country code in the primary mapping's iteration order carrying that
currency; in particular the concrete `getCurrencyToCountryCode()` table maps
`EUR` to `DEU`. -/
theorem getCurrencyToCountryCode_spec :
    (∀ entries : List (String × String),
      (buildReverseMap entries).lookup "EUR" = some "DEU") ∧
    (∀ (entries : List (String × String)) (cur : String), cur ≠ "EUR" →
      (∀ e ∈ entries, e.1 ≠ "") →
      (buildReverseMap entries).lookup cur =
        (entries.find? (fun e => e.2 == cur)).map (·.1)) ∧
    getCurrencyToCountryCode.lookup "EUR" = some "DEU" := by
  refine ⟨?_, ?_, by decide⟩
  · intro entries
    exact revMap_preserve entries _ "EUR" "DEU" (by decide) (by decide)
  · intro entries cur hcur hne
    refine revMap_first entries _ cur ?_ hne
    rw [lookup_cons_ite, if_neg hcur]
    rfl

/-- Concrete application of `getCurrencyToCountryCode_spec`: in the shipped
table, `USD` resolves to the first country carrying it, `USA`. -/
theorem getCurrencyToCountryCode_spec_witness :
    getCurrencyToCountryCode.lookup "USD" = some "USA" := by
  have h := getCurrencyToCountryCode_spec.2.1 countryCodeToCurrencyCode "USD"
    (by decide) (by decide)
  rw [getCurrencyToCountryCode]
  rw [h]
  decide

/-! ## C1 -/

/-- C1: under the data-model invariant that snapshot rates are positive
multipliers, `convertCurrency` is the identity when `from = to`; when either
currency is missing from the rate table it returns the amount unchanged and
`getExchangeRate` returns 1; otherwise both follow the three-way branch on
the snapshot's base (`a * rates[to]`, `a / rates[from]`,
`a / rates[from] * rates[to]`, and the corresponding scalar multipliers).
Both functions are total, so neither ever fails. -/
theorem convertCurrency_getExchangeRate_spec
    (a : ℚ) (f t : String) (s : ExchangeRates)
    (hpos : ∀ kv ∈ s.rates, 0 < kv.2) :
    (f = t → convertCurrency a f t s = a ∧ getExchangeRate f t s = 1) ∧
    (f ≠ t → (s.rates.lookup f = none ∨ s.rates.lookup t = none) →
      convertCurrency a f t s = a ∧ getExchangeRate f t s = 1) ∧
    (f ≠ t → ∀ rf rt : ℚ, s.rates.lookup f = some rf → s.rates.lookup t = some rt →
      convertCurrency a f t s =
        (if s.base = f then a * rt else if s.base = t then a / rf else a / rf * rt) ∧
      getExchangeRate f t s =
        (if s.base = f then rt else if s.base = t then 1 / rf else rt / rf)) := by
  refine ⟨?_, ?_, ?_⟩
  · intro h
    simp [convertCurrency, getExchangeRate, h]
  · intro hne hmiss
    have hfal : (numFalsy (s.rates.lookup f) || numFalsy (s.rates.lookup t)) = true := by
      rcases hmiss with h | h <;> simp [h, numFalsy]
    constructor
    · simp [convertCurrency, hne, hfal]
    · simp [getExchangeRate, hne, hfal]
  · intro hne rf rt hf ht
    have hrf : rf ≠ 0 := ne_of_gt (hpos _ (lookup_mem hf))
    have hrt : rt ≠ 0 := ne_of_gt (hpos _ (lookup_mem ht))
    constructor
    · simp [convertCurrency, hne, hf, ht, numFalsy, hrf, hrt]
    · simp [getExchangeRate, hne, hf, ht, numFalsy, hrf, hrt]

/-- Witness for C1 at the spec's §8 snapshot: converting 100 GBP to EUR goes
through the USD base. -/
theorem convertCurrency_getExchangeRate_spec_witness :
    convertCurrency 100 "GBP" "EUR" exampleSnapshot = 100 / (79/100) * (92/100) ∧
    getExchangeRate "GBP" "EUR" exampleSnapshot = (92/100) / (79/100) := by
  have h := (convertCurrency_getExchangeRate_spec 100 "GBP" "EUR" exampleSnapshot
    (by with_unfolding_all decide)).2.2 (by decide) (79/100) (92/100)
    (by with_unfolding_all decide) (by with_unfolding_all decide)
  constructor
  · rw [h.1]
    simp [exampleSnapshot]
  · rw [h.2]
    simp [exampleSnapshot]

/-! ## C2 -/

/-- C2: with a non-zero amount, selected countries and finished loading, the
engine's `pppAmount` is `amount * targetPPP / originPPP` whenever both PPP
factors are present and non-zero; and a PPP factor that is absent or `0` on
either side makes `convertedPrice` yield `null`, not an error. -/
theorem convertedPrice_ppp_spec
    (p : ℚ) (oc tc : Country) (ex ppp : List (String × ℚ)) (hp : p ≠ 0) :
    (∀ po pt : ℚ, ppp.lookup oc.currencyCode = some po → po ≠ 0 →
      ppp.lookup tc.currencyCode = some pt → pt ≠ 0 →
      (convertedPrice ⟨some p, some oc, some tc, false, ex, ppp⟩).map
        (fun out => out.ppp) = some (p * pt / po)) ∧
    ((ppp.lookup oc.currencyCode = none ∨ ppp.lookup oc.currencyCode = some 0 ∨
      ppp.lookup tc.currencyCode = none ∨ ppp.lookup tc.currencyCode = some 0) →
      convertedPrice ⟨some p, some oc, some tc, false, ex, ppp⟩ = none) := by
  constructor
  · intro po pt hpo hpo0 hpt hpt0
    simp [convertedPrice, numFalsy, hp, hpo, hpt, hpo0, hpt0]
  · intro hmiss
    have hfal : (numFalsy (ppp.lookup oc.currencyCode) ||
        numFalsy (ppp.lookup tc.currencyCode)) = true := by
      rcases hmiss with h | h | h | h <;> simp [h, numFalsy]
    have hg : numFalsy (some p) = false := by simp [numFalsy, hp]
    simp [convertedPrice, hg, hfal]

/-- Witness for C2 at the spec's §8 example: amount 100, origin PPP 1.0,
target PPP 0.7 gives pppAmount 70. -/
theorem convertedPrice_ppp_spec_witness :
    (convertedPrice ⟨some 100, some exampleCountryUSA, some exampleCountryGBR,
        false, [], examplePPPFactors⟩).map (fun out => out.ppp) = some 70 := by
  have h := (convertedPrice_ppp_spec 100 exampleCountryUSA exampleCountryGBR []
    examplePPPFactors (by with_unfolding_all decide)).1 1 (7/10)
    (by with_unfolding_all decide) (by with_unfolding_all decide)
    (by with_unfolding_all decide) (by with_unfolding_all decide)
  rw [h]
  have h70 : (100 : ℚ) * (7/10) / 1 = 70 := by with_unfolding_all decide
  rw [h70]

/-! ## C4 -/

/-- C4: `loadPPPData` throws a `DataFormatError` exactly when the trimmed
resource has fewer than two lines or its header lacks a column named
`2024`; on every other text it resolves to a mapping without throwing.
(A missing resource delivers no usable text and falls under the
fewer-than-two-lines case at this interface.) -/
theorem loadPPPData_error_iff (text : String) :
    (∃ e, loadPPPData text = Except.error e) ↔
      ((linesOf text).length < 2 ∨ findYearIndex text = none) := by
  simp only [loadPPPData, findYearIndex]
  by_cases h2 : (linesOf text).length < 2
  · rw [if_pos h2]
    exact iff_of_true ⟨.invalidCSV, rfl⟩ (Or.inl h2)
  · rw [if_neg h2]
    by_cases hh : (linesOf text).headD "" = ""
    · rw [if_pos hh]
      refine iff_of_true ⟨.missingHeader, rfl⟩ (Or.inr ?_)
      rw [hh]
      decide
    · rw [if_neg hh]
      cases hfind : (parseCSVLine ((linesOf text).headD "")).findIdx? (· == "2024") with
      | none => exact iff_of_true ⟨.no2024Data, rfl⟩ (Or.inr rfl)
      | some yi =>
        refine iff_of_false ?_ ?_
        · rintro ⟨e, he⟩
          exact Except.noConfusion he
        · rintro (h | h)
          · exact h2 h
          · exact Option.noConfusion h

/-- Witness for C4: a two-line CSV without a 2024 column falls in the
failure region. -/
theorem loadPPPData_error_iff_witness :
    (linesOf "Country,Code\nFrance,FRA").length < 2 ∨
      findYearIndex "Country,Code\nFrance,FRA" = none :=
  (loadPPPData_error_iff "Country,Code\nFrance,FRA").mp ⟨.no2024Data, by decide⟩

/-! ## C7 -/

theorem csvAux_length (cs : List Char) : ∀ (cur : List Char) (inQ : Bool),
    (csvAux cs cur inQ).length = 1 + sepCount cs inQ := by
  induction cs with
  | nil => intro cur inQ; simp [csvAux, sepCount]
  | cons c cs ih =>
    intro cur inQ
    by_cases hq : c = '"'
    · simp [csvAux, sepCount, hq, ih]
    · by_cases hc : c = ',' ∧ inQ = false
      · obtain ⟨hc1, hc2⟩ := hc
        subst hc2
        subst hc1
        simp [csvAux, sepCount, ih]
        omega
      · simp [csvAux, sepCount, hq, hc, ih]

theorem csvAux_unterminated (cs : List Char) : ∀ cur : List Char,
    (∀ c ∈ cs, c ≠ '"') → csvAux cs cur true = [⟨cur ++ cs⟩] := by
  induction cs with
  | nil => intro cur _; simp [csvAux]
  | cons c cs ih =>
    intro cur h
    have hq : c ≠ '"' := h c (List.mem_cons_self _ _)
    have hc : ¬(c = ',' ∧ (true : Bool) = false) := by simp
    simp only [csvAux, if_neg hq, if_neg hc]
    rw [ih (cur ++ [c]) (fun x hx => h x (List.mem_cons_of_mem _ hx))]
    simp

/-- C7: `parseCSVLine` honours double-quoted fields: for every line the
number of fields is one more than the number of commas lying outside quoted
regions (so a comma inside quotes never separates); once inside an
unterminated quote, the whole remainder of the line joins the current field;
and the Bolivia example parses its quoted, comma-carrying country name as a
single field. -/
theorem parseCSVLine_quote_handling :
    (∀ line : String, (parseCSVLine line).length = 1 + sepCount line.data false) ∧
    (∀ cs cur : List Char, (∀ c ∈ cs, c ≠ '"') →
      csvAux cs cur true = [⟨cur ++ cs⟩]) ∧
    parseCSVLine "\"Bolivia, Plurinational State of\",BOL,2024,6.123" =
      ["Bolivia, Plurinational State of", "BOL", "2024", "6.123"] ∧
    parseCSVLine "a,\"b,c" = ["a", "b,c"] :=
  ⟨fun line => csvAux_length line.data [] false,
   fun cs cur h => csvAux_unterminated cs cur h,
   by decide, by decide⟩

/-- Witness for C7: a line with a quoted comma has three fields, and the
unterminated-quote lemma applies to a concrete quote-free remainder. -/
theorem parseCSVLine_quote_handling_witness :
    (parseCSVLine "x,\"y,z\",w").length = 1 + sepCount "x,\"y,z\",w".data false ∧
    csvAux "rest,of,line".data "start".data true =
      [⟨"start".data ++ "rest,of,line".data⟩] :=
  ⟨parseCSVLine_quote_handling.1 "x,\"y,z\",w",
   parseCSVLine_quote_handling.2.1 "rest,of,line".data "start".data (by decide)⟩

/-! ## Shape lemmas for the loader  -/

theorem acceptedRecord_pppFactor {yi : ℕ} {line : String} {r : PPPCountryData}
    (h : acceptedRecord yi line = some r) :
    (r.pppFactor.getD JSNumber.nan).isNaN = false := by
  simp only [acceptedRecord] at h
  split_ifs at h with h1 h2 h3 h4
  cases h
  simpa [Bool.not_eq_true] using h4

theorem loadPPPData_ok_eq {text : String} {m : PPPMap}
    (h : loadPPPData text = .ok m) :
    ∃ yi, findYearIndex text = some yi ∧
      m = ((linesOf text).drop 1).foldl
        (fun m line =>
          match acceptedRecord yi line with
          | none => m
          | some r => mapSet m r.countryCode r)
        [] := by
  simp only [loadPPPData] at h
  by_cases h2 : (linesOf text).length < 2
  · rw [if_pos h2] at h
    exact Except.noConfusion h
  · rw [if_neg h2] at h
    by_cases hh : (linesOf text).headD "" = ""
    · rw [if_pos hh] at h
      exact Except.noConfusion h
    · rw [if_neg hh] at h
      cases hfind : (parseCSVLine ((linesOf text).headD "")).findIdx? (· == "2024") with
      | none =>
        rw [hfind] at h
        exact Except.noConfusion h
      | some yi =>
        rw [hfind] at h
        refine ⟨yi, hfind, ?_⟩
        cases h
        rfl

theorem processRows_mem {yi : ℕ} {lines : List String} {m0 : PPPMap}
    {kv : String × PPPCountryData}
    (h : kv ∈ lines.foldl
      (fun m line =>
        match acceptedRecord yi line with
        | none => m
        | some r => mapSet m r.countryCode r)
      m0) :
    kv ∈ m0 ∨ ∃ line ∈ lines,
      acceptedRecord yi line = some kv.2 ∧ kv.1 = kv.2.countryCode := by
  induction lines generalizing m0 with
  | nil => exact Or.inl (by simpa using h)
  | cons line rest ih =>
    simp only [List.foldl_cons] at h
    cases hstep : acceptedRecord yi line with
    | none =>
      rw [hstep] at h
      rcases ih h with hm | ⟨l, hl, hacc, hcode⟩
      · exact Or.inl hm
      · exact Or.inr ⟨l, List.mem_cons_of_mem _ hl, hacc, hcode⟩
    | some r =>
      rw [hstep] at h
      rcases ih h with hm | ⟨l, hl, hacc, hcode⟩
      · rcases mem_mapSet hm with heq | hm0
        · refine Or.inr ⟨line, List.mem_cons_self _ _, ?_, ?_⟩
          · rw [heq]
            exact hstep
          · rw [heq]
        · exact Or.inl hm0
      · exact Or.inr ⟨l, List.mem_cons_of_mem _ hl, hacc, hcode⟩

/-! ## C5 -/

/-- C5 counterexample: the loader stores parsed year-values without any sign
check, so a data row with a negative value enters the mapping with a
non-positive `pppFactor`, refuting the claim that every stored factor is
strictly positive. -/
theorem loadPPPData_pppFactor_pos_refuted :
    ¬ (∀ (text : String) (m : PPPMap) (code : String) (rec : PPPCountryData),
        loadPPPData text = Except.ok m → m.lookup code = some rec →
        ∃ q : ℚ, rec.pppFactor = some (JSNumber.finite q) ∧ 0 < q) := by
  intro hcl
  have hparse : jsParseFloat "-5" = JSNumber.finite (-5) := by
    with_unfolding_all decide
  obtain ⟨q, hq, hpos⟩ := hcl "a,b,2024\nXland,XXX,-5"
    [("XXX", ⟨"Xland", "XXX", some (jsParseFloat "-5"), 2024⟩)] "XXX"
    ⟨"Xland", "XXX", some (jsParseFloat "-5"), 2024⟩ (by rfl) (by rfl)
  rw [hparse] at hq
  have h5 : JSNumber.finite (-5) = JSNumber.finite q := Option.some.inj hq
  have hq5 : (-5 : ℚ) = q := by cases h5; rfl
  rw [← hq5] at hpos
  exact absurd hpos (by with_unfolding_all decide)

/-- C5 (amended): every record stored in the mapping returned by
`loadPPPData` carries a successfully parsed year-value: its `pppFactor` is
never the interface's `null` and never NaN (unparsable rows are dropped
before entering the mapping); positivity, however, is not enforced. -/
theorem loadPPPData_pppFactor_parsed (text : String) (m : PPPMap)
    (code : String) (rec : PPPCountryData)
    (hok : loadPPPData text = Except.ok m) (hlook : m.lookup code = some rec) :
    (rec.pppFactor.getD JSNumber.nan).isNaN = false := by
  obtain ⟨yi, _, rfl⟩ := loadPPPData_ok_eq hok
  rcases processRows_mem (lookup_mem hlook) with hm | ⟨line, _, hacc, _⟩
  · simp at hm
  · exact acceptedRecord_pppFactor hacc

/-- Witness for C5 (amended): the record stored for AAA on the duplicate
fixture has a parsed, non-NaN factor. -/
theorem loadPPPData_pppFactor_parsed_witness :
    ((⟨"Aland v2", "AAA", some (jsParseFloat "4"), 2024⟩ :
        PPPCountryData).pppFactor.getD JSNumber.nan).isNaN = false :=
  loadPPPData_pppFactor_parsed exampleCSVdup exampleMapDup "AAA" _
    (by rfl) (by rfl)

/-! ## C6 -/

theorem lastAccepted_fold_or (yi : ℕ) (code : String) (lines : List String) :
    ∀ acc : Option PPPCountryData,
    lines.foldl
      (fun acc line =>
        match acceptedRecord yi line with
        | some r => if r.countryCode = code then some r else acc
        | none => acc)
      acc =
    (lastAccepted yi lines code).or acc := by
  induction lines with
  | nil => intro acc; simp [lastAccepted]
  | cons line rest ih =>
    intro acc
    simp only [List.foldl_cons]
    rw [ih]
    conv_rhs => rw [lastAccepted]
    simp only [List.foldl_cons]
    rw [show (lastAccepted yi rest code) = rest.foldl
      (fun acc line =>
        match acceptedRecord yi line with
        | some r => if r.countryCode = code then some r else acc
        | none => acc) none from rfl] at ih
    rw [ih, Option.or_assoc]
    congr 1
    cases hstep : acceptedRecord yi line with
    | none => simp
    | some r =>
      by_cases hc : r.countryCode = code
      · simp [hc]
      · simp [hc]

theorem lastAccepted_cons (yi : ℕ) (code : String) (line : String)
    (rest : List String) :
    lastAccepted yi (line :: rest) code =
      (lastAccepted yi rest code).or
        (match acceptedRecord yi line with
         | some r => if r.countryCode = code then some r else none
         | none => none) := by
  conv_lhs => rw [lastAccepted]
  simp only [List.foldl_cons]
  exact lastAccepted_fold_or yi code rest _

theorem lookup_processRows (yi : ℕ) (code : String) (lines : List String) :
    ∀ m0 : PPPMap,
    (lines.foldl
      (fun m line =>
        match acceptedRecord yi line with
        | none => m
        | some r => mapSet m r.countryCode r)
      m0).lookup code =
    (lastAccepted yi lines code).or (m0.lookup code) := by
  induction lines with
  | nil => intro m0; simp [lastAccepted]
  | cons line rest ih =>
    intro m0
    simp only [List.foldl_cons]
    rw [ih, lastAccepted_cons, Option.or_assoc]
    congr 1
    cases hstep : acceptedRecord yi line with
    | none => simp
    | some r =>
      by_cases hc : r.countryCode = code
      · subst hc
        simp [lookup_mapSet_self]
      · simp [hc, lookup_mapSet_ne _ _ _ _ (fun h => hc h.symm)]

theorem lastAccepted_isSome_iff (yi : ℕ) (code : String) (lines : List String) :
    (lastAccepted yi lines code).isSome = true ↔
      ∃ line ∈ lines, ∃ r, acceptedRecord yi line = some r ∧
        r.countryCode = code := by
  induction lines with
  | nil => simp [lastAccepted]
  | cons line rest ih =>
    rw [lastAccepted_cons]
    simp only [Option.isSome_or, Bool.or_eq_true, ih, List.mem_cons]
    constructor
    · rintro (h | h)
      · obtain ⟨l, hl, r, hr⟩ := h
        exact ⟨l, Or.inr hl, r, hr⟩
      · cases hstep : acceptedRecord yi line with
        | none => rw [hstep] at h; simp at h
        | some r =>
          rw [hstep] at h
          by_cases hc : r.countryCode = code
          · exact ⟨line, Or.inl rfl, r, hstep, hc⟩
          · simp [hc] at h
    · rintro ⟨l, hl | hl, r, hr, hc⟩
      · subst hl
        right
        simp [hr, hc]
      · exact Or.inl ⟨l, hl, r, hr, hc⟩

theorem acceptedRecord_isSome_eq (yi : ℕ) (line : String) :
    (acceptedRecord yi line).isSome = rowAccepted yi line := by
  by_cases hline : line = ""
  · subst hline
    have hpl : parseCSVLine "" = [""] := rfl
    simp [acceptedRecord, rowAccepted, hpl]
  · simp only [acceptedRecord, rowAccepted, if_neg hline]
    by_cases h1 : (parseCSVLine line).length < yi + 1
    · rw [if_pos h1]
      have hnle : ¬(yi + 1 ≤ (parseCSVLine line).length) := by omega
      simp [hnle]
    · rw [if_neg h1]
      have hle : yi + 1 ≤ (parseCSVLine line).length := by omega
      by_cases h2 : ((parseCSVLine line)[0]?).getD "" = "" ∨
          ((parseCSVLine line)[1]?).getD "" = "" ∨
          ((parseCSVLine line)[yi]?).getD "" = ""
      · rw [if_pos h2]
        rcases h2 with h | h | h <;> simp [h, hle]
      · rw [if_neg h2]
        push_neg at h2
        obtain ⟨ha, hb, hc⟩ := h2
        by_cases h3 :
            (jsParseFloat (((parseCSVLine line)[yi]?).getD "")).isNaN = true
        · rw [if_pos h3]
          simp [h3]
        · rw [if_neg h3]
          rw [Bool.not_eq_true] at h3
          simp [hle, ha, hb, hc, h3]

/-- C6: on a successfully loaded text with year column `yi`, the mapping's
entry for each country code is exactly the record of the last accepted data
row carrying that code (later rows overwrite earlier ones, duplicates are
not an error); a row is accepted exactly when it reaches the year column,
has non-empty name, code, and year-value fields, and its year-value parses
as a non-NaN float; and a code is present in the mapping exactly when some
data row was accepted for it. -/
theorem loadPPPData_rows_spec (text : String) (yi : ℕ) (m : PPPMap)
    (hyi : findYearIndex text = some yi)
    (hok : loadPPPData text = Except.ok m) :
    (∀ code, m.lookup code = lastAccepted yi ((linesOf text).drop 1) code) ∧
    (∀ line, (acceptedRecord yi line).isSome = rowAccepted yi line) ∧
    (∀ code, (m.lookup code).isSome = true ↔
      ∃ line ∈ (linesOf text).drop 1, ∃ r,
        acceptedRecord yi line = some r ∧ r.countryCode = code) := by
  obtain ⟨yi', hyi', heq⟩ := loadPPPData_ok_eq hok
  rw [hyi'] at hyi
  have hyy : yi' = yi := Option.some.inj hyi
  subst hyy
  subst heq
  refine ⟨?_, fun line => acceptedRecord_isSome_eq yi' line, ?_⟩
  · intro code
    rw [lookup_processRows]
    simp [Option.or_none]
  · intro code
    rw [lookup_processRows]
    simp only [List.lookup_nil, Option.or_none]
    exact lastAccepted_isSome_iff yi' code _

/-- Witness for C6 on the duplicate fixture: the stored AAA entry is the
record of the later AAA row ("Aland v2"), demonstrating last-wins. -/
theorem loadPPPData_rows_spec_witness :
    exampleMapDup.lookup "AAA" =
      lastAccepted 3 ((linesOf exampleCSVdup).drop 1) "AAA" ∧
    lastAccepted 3 ((linesOf exampleCSVdup).drop 1) "AAA" =
      some ⟨"Aland v2", "AAA", some (jsParseFloat "4"), 2024⟩ :=
  ⟨(loadPPPData_rows_spec exampleCSVdup 3 exampleMapDup (by decide) (by rfl)).1
      "AAA",
   by rfl⟩

/-! ## C8 -/

theorem buildCountries_mem {ccToCur curNames : List (String × String)}
    {flagOf : String → String} {m : PPPMap} {c : Country}
    (h : c ∈ buildCountries ccToCur curNames flagOf m) :
    c.currencyCode ≠ "" ∧ ccToCur.lookup c.code = some c.currencyCode := by
  suffices hgen : ∀ (m : PPPMap) (acc : List Country),
      (∀ x ∈ acc, x.currencyCode ≠ "" ∧ ccToCur.lookup x.code = some x.currencyCode) →
      ∀ x ∈ m.foldl
        (fun acc kv =>
          let currencyCode? := ccToCur.lookup kv.1
          if strFalsy currencyCode? then acc
          else
            let currencyCode := currencyCode?.getD ""
            acc ++ [{ name := kv.2.countryName
                      code := kv.1
                      currency := jsStrOr (curNames.lookup currencyCode) currencyCode
                      currencyCode := currencyCode
                      flag := flagOf kv.1 }])
        acc,
      x.currencyCode ≠ "" ∧ ccToCur.lookup x.code = some x.currencyCode by
    exact hgen m [] (by simp) c h
  intro m
  induction m with
  | nil => intro acc hacc x hx; exact hacc x (by simpa using hx)
  | cons kv rest ih =>
    intro acc hacc x hx
    simp only [List.foldl_cons] at hx
    refine ih _ ?_ x hx
    intro y hy
    by_cases hf : strFalsy (ccToCur.lookup kv.1) = true
    · rw [if_pos hf] at hy
      exact hacc y hy
    · rw [if_neg hf] at hy
      rcases List.mem_append.mp hy with hy | hy
      · exact hacc y hy
      · rw [List.mem_singleton] at hy
        subst hy
        cases hlk : ccToCur.lookup kv.1 with
        | none =>
          rw [hlk] at hf
          exact absurd rfl hf
        | some s =>
          rw [hlk] at hf
          have hs : ¬(s = "") := fun hse => hf (by simp [strFalsy, hse])
          refine ⟨?_, ?_⟩
          · simpa [hlk] using hs
          · simp [hlk]

/-- C8: whenever the catalog builder succeeds, every country in the
resulting sequence has a non-empty `currencyCode` drawn from the reference
table (codes absent from the table are excluded, not defaulted), and the
sequence is pairwise ordered by the locale-aware name comparator, i.e.
sorted ascending by display name. -/
theorem getCountriesFromPPPData_spec
    (ccToCur curNames : List (String × String)) (flagOf : String → String)
    (lc : String → String → ℤ)
    (htrans : ∀ a b c : String, lc a b ≤ 0 → lc b c ≤ 0 → lc a c ≤ 0)
    (htotal : ∀ a b : String, lc a b ≤ 0 ∨ lc b a ≤ 0)
    (text : String) (countries : List Country)
    (hok : getCountriesFromPPPData ccToCur curNames flagOf lc text =
      Except.ok countries) :
    (∀ c ∈ countries,
      c.currencyCode ≠ "" ∧ ccToCur.lookup c.code = some c.currencyCode) ∧
    List.Pairwise (fun a b : Country => lc a.name b.name ≤ 0) countries := by
  obtain ⟨m, hm, rfl⟩ : ∃ m, loadPPPData text = .ok m ∧
      countries = (buildCountries ccToCur curNames flagOf m).mergeSort
        (fun a b => lc a.name b.name ≤ 0) := by
    unfold getCountriesFromPPPData at hok
    cases hld : loadPPPData text with
    | error e =>
      rw [hld] at hok
      exact Except.noConfusion hok
    | ok m =>
      rw [hld] at hok
      exact ⟨m, rfl, (Except.ok.inj hok).symm⟩
  constructor
  · intro c hc
    exact buildCountries_mem (List.mem_mergeSort.mp hc)
  · have htr : ∀ a b c : Country,
        decide (lc a.name b.name ≤ 0) = true →
        decide (lc b.name c.name ≤ 0) = true →
        decide (lc a.name c.name ≤ 0) = true := by
      intro a b c hab hbc
      exact decide_eq_true (htrans _ _ _ (of_decide_eq_true hab) (of_decide_eq_true hbc))
    have hto : ∀ a b : Country,
        (decide (lc a.name b.name ≤ 0) || decide (lc b.name a.name ≤ 0)) = true := by
      intro a b
      rcases htotal a.name b.name with h | h <;> simp [h]
    have hs := @List.sorted_mergeSort Country
      (fun a b : Country => decide (lc a.name b.name ≤ 0)) htr hto
      (buildCountries ccToCur curNames flagOf m)
    exact hs.imp fun h => of_decide_eq_true h

/-- Witness for C8 on the concrete fixture: every produced country has a
non-empty currency code (Gamma/CCC is excluded), and the output is pairwise
ordered under the constant comparator. -/
theorem getCountriesFromPPPData_spec_witness :
    exampleCatalog.all (fun c => c.currencyCode != "") = true ∧
    List.Pairwise (fun a b : Country => ((fun _ _ => (0 : ℤ)) a.name b.name) ≤ 0)
      exampleCatalog := by
  have h := getCountriesFromPPPData_spec exampleRefTable exampleCurrencyNames
    (fun _ => "") (fun _ _ => 0)
    (fun a b c h1 h2 => h1) (fun a b => Or.inl (le_refl 0))
    exampleCSVcat exampleCatalog (by rfl)
  constructor
  · rw [List.all_eq_true]
    intro c hc
    simpa using (h.1 c hc).1
  · exact h.2

end PPP
